import Mathlib

set_option maxRecDepth 200000

/- Shallow embedding of src/dart.rs from notmecab-rs: the loader for a
   compiled double-array trie (DART) dictionary.

   Conventions used throughout this development:
   * Rust u32 values are modelled as Nat; wrapping u32 addition is taken
     mod 4294967296 where the source can overflow, and the bitwise
     complement of a u32 value x is 4294967295 - x.
   * Byte streams and byte buffers are List Nat.
   * A Rust String key is modelled as its list of chars (Key).
   * Fallible code returns Except; a Rust slice-index panic is the
     distinguished error LoadErr.panic; the recursive trie walk takes an
     explicit fuel argument, and a result of none models a walk that does
     not complete within that recursion depth (for any depth: divergence).
   * Rust HashMap is modelled as an association list where insert conses
     a new binding in front and lookup returns the first match, which is
     observationally the same map through get / contains_key / key-set.
   * The byte-level stream primitives (read_u32, read_str_buffer,
     read_nstr, seek_rel_4), the token record reader FormatToken::read
     and the codepoints helper live outside src/ (super::file,
     super::FormatToken, crate::strings); they are modelled from the
     spec, as marked on each of their definitions below.
-/

/-- Key models a decoded Rust String as its list of Unicode scalar values. -/
abbrev Key := List Char

/-- Link is one double-array trie node record, dart.rs lines 13-16. -/
structure Link where
  base : Nat
  check : Nat
  deriving DecidableEq

/-- Default Link used by getD; every access below is bounds-checked first. -/
def dfltLink : Link := { base := 0, check := 0 }

/-- Decidable equality on Except, used to evaluate the validation results. -/
instance {ε α : Type} [DecidableEq ε] [DecidableEq α] : DecidableEq (Except ε α) := fun x y =>
  match x, y with
  | Except.error e, Except.error f =>
    if h : e = f then isTrue (h ▸ rfl) else isFalse (fun hh => h (by injection hh))
  | Except.ok a, Except.ok b =>
    if h : a = b then isTrue (h ▸ rfl) else isFalse (fun hh => h (by injection hh))
  | Except.error _, Except.ok _ => isFalse (fun hh => Except.noConfusion hh)
  | Except.ok _, Except.error _ => isFalse (fun hh => Except.noConfusion hh)

/-- Embedding of check_valid_link, dart.rs lines 25-43. -/
def check_valid_link (links : List Link) (src : Nat) (dst : Nat) : Except Int Unit :=
  if dst ≥ links.length then Except.error 1
  else if (links.getD dst dfltLink).check ≠ src then Except.error 2
  else if (links.getD dst dfltLink).base = src then Except.error 3
  else Except.ok ()

/-- Embedding of check_valid_out, dart.rs lines 45-57. -/
def check_valid_out (links : List Link) (src : Nat) (dst : Nat) : Except Int Unit :=
  match check_valid_link links src dst with
  | Except.error e => Except.error e
  | Except.ok () =>
    if (links.getD dst dfltLink).base < 0x80000000 then Except.error (-1)
    else Except.ok ()

/-- Bitwise complement of a u32 value (the Rust expression !x on u32). -/
def compl32 (x : Nat) : Nat := 4294967295 - x

/-- True when a byte is a UTF-8 continuation byte. -/
def isCont (b : Nat) : Bool := 0x80 ≤ b && b < 0xC0

/-- Modelled from the spec: UTF-8 decoding of a byte buffer, the decoding
step of the external read_str_buffer (super::file) used for trie keys and
feature strings; returns none on any malformed sequence. -/
def utf8Decode : List Nat → Option (List Char)
  | [] => some []
  | b :: rest =>
    if b < 0x80 then
      (utf8Decode rest).map (fun cs => Char.ofNat b :: cs)
    else if b < 0xC2 then none
    else if b < 0xE0 then
      match rest with
      | b2 :: rest2 =>
        if isCont b2 then
          (utf8Decode rest2).map (fun cs => Char.ofNat ((b - 0xC0) * 0x40 + (b2 - 0x80)) :: cs)
        else none
      | [] => none
    else if b < 0xF0 then
      match rest with
      | b2 :: b3 :: rest2 =>
        if isCont b2 && isCont b3
            && decide (0x800 ≤ (b - 0xE0) * 0x1000 + (b2 - 0x80) * 0x40 + (b3 - 0x80))
            && decide ((b - 0xE0) * 0x1000 + (b2 - 0x80) * 0x40 + (b3 - 0x80) < 0xD800
                  ∨ 0xE000 ≤ (b - 0xE0) * 0x1000 + (b2 - 0x80) * 0x40 + (b3 - 0x80)) then
          (utf8Decode rest2).map
            (fun cs => Char.ofNat ((b - 0xE0) * 0x1000 + (b2 - 0x80) * 0x40 + (b3 - 0x80)) :: cs)
        else none
      | _ => none
    else if b < 0xF5 then
      match rest with
      | b2 :: b3 :: b4 :: rest2 =>
        if isCont b2 && isCont b3 && isCont b4
            && decide (0x10000 ≤ (b - 0xF0) * 0x40000 + (b2 - 0x80) * 0x1000 + (b3 - 0x80) * 0x40 + (b4 - 0x80))
            && decide ((b - 0xF0) * 0x40000 + (b2 - 0x80) * 0x1000 + (b3 - 0x80) * 0x40 + (b4 - 0x80) < 0x110000) then
          (utf8Decode rest2).map
            (fun cs => Char.ofNat ((b - 0xF0) * 0x40000 + (b2 - 0x80) * 0x1000 + (b3 - 0x80) * 0x40 + (b4 - 0x80)) :: cs)
        else none
      | _ => none
    else none

/-- Bytes of a buffer before its first 0 terminator. -/
def takeUntilZero : List Nat → List Nat
  | [] => []
  | b :: rest => if b = 0 then [] else b :: takeUntilZero rest

/-- Modelled from the spec: the external read_str_buffer (super::file); it
decodes a byte buffer as a UTF-8 string using the terminator convention of
the format, and fails on malformed byte sequences. -/
def read_str_buffer (buf : List Nat) : Except String Key :=
  match utf8Decode (takeUntilZero buf) with
  | some k => Except.ok k
  | none => Except.error "invalid utf-8"

/-- Candidate child index of a node, the u32 expression base + 1 + i of
dart.rs line 70 under wrapping u32 arithmetic. -/
def child32 (base i : Nat) : Nat := (base + 1 + i) % 4294967296

/-- Terminal-check step of collect_links_hashmap, dart.rs lines 61-67: the
entries pushed at one visited node (one or none). -/
def terminal_entry (links : List Link) (base : Nat) (key : List Nat) : List (Key × Nat) :=
  if check_valid_out links base base = Except.ok () then
    match read_str_buffer key with
    | Except.ok s => [(s, compl32 ((links.getD base dfltLink).base))]
    | Except.error _ => []
  else []

/-- Child loop of collect_links_hashmap, dart.rs lines 68-76, over an
explicit list of candidate byte values; walkAt stands for the recursive
call at the next node. -/
def collect_links_kids (links : List Link) (walkAt : Nat → List Nat → Option (List (Key × Nat)))
    (base : Nat) (key : List Nat) : List Nat → Option (List (Key × Nat))
  | [] => some []
  | i :: rest =>
    if check_valid_link links base (child32 base i) = Except.ok () then
      match walkAt ((links.getD (child32 base i) dfltLink).base) (key ++ [i]) with
      | none => none
      | some sub =>
        match collect_links_kids links walkAt base key rest with
        | none => none
        | some tail => some (sub ++ tail)
    else collect_links_kids links walkAt base key rest

/-- Embedding of collect_links_hashmap, dart.rs lines 59-77, with explicit
recursion fuel; none models a traversal that does not complete within that
depth. The returned list is the collection in Rust push order. -/
def collect_links_hashmap (links : List Link) : Nat → Nat → List Nat → Option (List (Key × Nat))
  | 0, _, _ => none
  | fuel + 1, base, key =>
    match collect_links_kids links (fun b k => collect_links_hashmap links fuel b k) base key (List.range 256) with
    | none => none
    | some kids => some (terminal_entry links base key ++ kids)

/-- The decided extreme: the full depth-first walk of dart.rs line 101
finishes within some recursion depth. -/
def walk_terminates (links : List Link) : Prop :=
  ∃ fuel, (collect_links_hashmap links fuel ((links.getD 0 dfltLink).base) []).isSome = true

/-- FormatToken is the externally defined token record (super::FormatToken).
Modelled from the spec: this core only needs its identity and sequential
position, so it carries its 16 raw bytes and its table index. -/
structure FormatToken where
  raw : List Nat
  seq : Nat
  deriving DecidableEq

/-- Dict models the Rust HashMap from key strings to token lists as an
association list; lookup returns the first match, so a binding consed in
front replaces an older binding for the same key observationally. -/
abbrev Dict := List (Key × List FormatToken)

/-- First-match association lookup, modelling HashMap::get. -/
def lookupKey : Dict → Key → Option (List FormatToken)
  | [], _ => none
  | (k1, v) :: rest, k => if k = k1 then some v else lookupKey rest k

/-- Modelling HashMap::insert: the new binding shadows any older one. -/
def dictInsert (d : Dict) (k : Key) (v : List FormatToken) : Dict := (k, v) :: d

/-- Inner loop of entries_to_tokens, dart.rs lines 87-90: it reads the
token records at indices first, first+1, ..., first+count-1 in order, and
is none as soon as an index falls outside the table (the Rust panic). -/
def readRange (tokens : List FormatToken) (first : Nat) : Nat → Option (List FormatToken)
  | 0 => some []
  | count + 1 =>
    match tokens.get? first, readRange tokens (first + 1) count with
    | some t, some rest => some (t :: rest)
    | _, _ => none

/-- Embedding of entries_to_tokens, dart.rs lines 79-96, folding the
collected entries in order into the dictionary map; none models the Rust
out-of-bounds panic. -/
def entries_to_tokens : List (Key × Nat) → List FormatToken → Dict → Option Dict
  | [], _, d => some d
  | (k, p) :: rest, tokens, d =>
    match readRange tokens (p / 0x100) (p % 0x100) with
    | some similar_lexemes => entries_to_tokens rest tokens (dictInsert d k similar_lexemes)
    | none => none

/-- Pointer of the last entry carrying key k in a collected entry list. -/
def lastPtr : List (Key × Nat) → Key → Option Nat
  | [], _ => none
  | (k1, p) :: rest, k =>
    match lastPtr rest k with
    | some q => some q
    | none => if k = k1 then some p else none

/-- Load-time failure modes of the embedded loader. -/
inductive LoadErr where
  | msg : String → LoadErr
  | stream : LoadErr
  | panic : LoadErr
  | fuelOut : LoadErr
  deriving DecidableEq

/- LoadErr.msg s is an explicit Err(s) return in dart.rs; LoadErr.stream is
   an error propagated from the external byte readers of super::file;
   LoadErr.panic is a Rust out-of-bounds slice index; LoadErr.fuelOut is a
   trie walk that did not complete within the given recursion fuel. -/

/-- All proper prefixes of a key inserted by dart.rs lines 208-214: the
codepoint prefixes of length 1 to len-1. -/
def prefixesOf (k : Key) : List Key := (List.range' 1 (k.length - 1)).map (fun i => k.take i)

/-- The contains_longer set built at dart.rs lines 205-215 from the keys of
the assembled dictionary, modelled as a list with membership as the set. -/
def build_contains_longer : List Key → List Key
  | [] => []
  | k :: rest => prefixesOf k ++ build_contains_longer rest

/-- DartDict is the immutable Dictionary Index, dart.rs lines 106-113. -/
structure DartDict where
  dict : Dict
  contains_longer : List Key
  left_contexts : Nat
  right_contexts : Nat
  feature_bytes : List Nat
  deriving DecidableEq

/-- Embedding of DartDict::may_contain, dart.rs lines 116-119. -/
def DartDict.may_contain (d : DartDict) (find : Key) : Bool :=
  decide (find ∈ d.contains_longer) || (lookupKey d.dict find).isSome

/-- Embedding of DartDict::dic_get, dart.rs lines 120-123. -/
def DartDict.dic_get (d : DartDict) (find : Key) : Option (List FormatToken) :=
  lookupKey d.dict find

/-- Embedding of DartDict::feature_get, dart.rs lines 124-134. -/
def feature_get (d : DartDict) (offset : Nat) : Except String Key :=
  if offset < d.feature_bytes.length then read_str_buffer (d.feature_bytes.drop offset)
  else Except.ok []

/-- Modelled from the spec: the external read_u32 of super::file reads one
little-endian 4-byte unsigned integer from the stream. -/
def read_u32 (s : List Nat) : Except LoadErr (Nat × List Nat) :=
  match s with
  | b0 :: b1 :: b2 :: b3 :: rest =>
    Except.ok (b0 + 256 * b1 + 65536 * b2 + 16777216 * b3, rest)
  | _ => Except.error LoadErr.stream

/-- Modelled from the spec: the external seek_rel_4 of super::file skips 4
bytes of the stream (a relative seek never fails on its own). -/
def seek_rel_4 (s : List Nat) : Except LoadErr (List Nat) := Except.ok (s.drop 4)

/-- Modelled from the spec: the external read_nstr of super::file reads a
fixed n-byte field and decodes it as a zero-padded UTF-8 string. -/
def read_nstr (s : List Nat) (n : Nat) : Except LoadErr (Key × List Nat) :=
  if n ≤ s.length then
    match read_str_buffer (s.take n) with
    | Except.ok k => Except.ok (k, s.drop n)
    | Except.error _ => Except.error LoadErr.stream
  else Except.error LoadErr.stream

/-- Embedding of Link::read, dart.rs lines 18-23. -/
def Link.read (s : List Nat) : Except LoadErr (Link × List Nat) :=
  match read_u32 s with
  | Except.error e => Except.error e
  | Except.ok (b, s1) =>
    match read_u32 s1 with
    | Except.error e => Except.error e
    | Except.ok (c, s2) => Except.ok ({ base := b, check := c }, s2)

/-- Modelled from the spec: the external FormatToken::read consumes one
16-byte token record and tags it with its sequential table index. -/
def FormatToken.read (s : List Nat) (seq : Nat) : Except LoadErr (FormatToken × List Nat) :=
  if 16 ≤ s.length then Except.ok ({ raw := s.take 16, seq := seq }, s.drop 16)
  else Except.error LoadErr.stream

/-- Link-table loading loop of dart.rs lines 163-167. -/
def readLinks (s : List Nat) : Nat → Except LoadErr (List Link × List Nat)
  | 0 => Except.ok ([], s)
  | n + 1 =>
    match Link.read s with
    | Except.error e => Except.error e
    | Except.ok (l, s1) =>
      match readLinks s1 n with
      | Except.error e => Except.error e
      | Except.ok (ls, s2) => Except.ok (l :: ls, s2)

/-- Token-table loading loop of dart.rs lines 169-173. -/
def readTokens (s : List Nat) (seq : Nat) : Nat → Except LoadErr (List FormatToken × List Nat)
  | 0 => Except.ok ([], s)
  | n + 1 =>
    match FormatToken.read s seq with
    | Except.error e => Except.error e
    | Except.ok (t, s1) =>
      match readTokens s1 (seq + 1) n with
      | Except.error e => Except.error e
      | Except.ok (ts, s2) => Except.ok (t :: ts, s2)

/-- Feature-blob read_exact of dart.rs lines 175-181. -/
def readFeatures (s : List Nat) (n : Nat) : Except LoadErr (List Nat × List Nat) :=
  if n ≤ s.length then Except.ok (s.take n, s.drop n)
  else Except.error (LoadErr.msg "IO error")

/-- Embedding of collect_links_into_hashmap, dart.rs lines 98-104; the
unguarded links[0] access panics on an empty link table. -/
def collect_links_into_hashmap (links : List Link) (tokens : List FormatToken) (fuel : Nat) :
    Except LoadErr Dict :=
  match links with
  | [] => Except.error LoadErr.panic
  | l0 :: _ =>
    match collect_links_hashmap links fuel l0.base [] with
    | none => Except.error LoadErr.fuelOut
    | some entries =>
      match entries_to_tokens entries tokens [] with
      | none => Except.error LoadErr.panic
      | some d => Except.ok d

/-- The expected encoding name, the string literal at dart.rs line 160. -/
def utf8Name : Key := ['U', 'T', 'F', '-', '8']

/-- Final assembly of the Dictionary Index, dart.rs lines 203-217. -/
def mkDartDict (dictionary : Dict) (left_contexts right_contexts : Nat) (feature_bytes : List Nat) :
    DartDict :=
  { dict := dictionary
    contains_longer := build_contains_longer (dictionary.map Prod.fst)
    left_contexts := left_contexts
    right_contexts := right_contexts
    feature_bytes := feature_bytes }

/-- Embedding of load_mecab_dart_file, dart.rs lines 137-218, over a byte
stream, with the recursion fuel of the trie walk made explicit. -/
def load_mecab_dart_file (arg_magic : Nat) (dic : List Nat) (fuel : Nat) : Except LoadErr DartDict :=
  match read_u32 dic with
  | Except.error e => Except.error e
  | Except.ok (magic, s1) =>
  if magic ≠ arg_magic then
    Except.error (LoadErr.msg "not a mecab dic file or is a dic file of the wrong kind") else
  match read_u32 s1 with
  | Except.error e => Except.error e
  | Except.ok (version, s2) =>
  if version ≠ 0x66 then Except.error (LoadErr.msg "unsupported version") else
  match seek_rel_4 s2 with
  | Except.error e => Except.error e
  | Except.ok s3 =>
  match read_u32 s3 with
  | Except.error e => Except.error e
  | Except.ok (_num_unknown, s4) =>
  match read_u32 s4 with
  | Except.error e => Except.error e
  | Except.ok (left_contexts, s5) =>
  match read_u32 s5 with
  | Except.error e => Except.error e
  | Except.ok (right_contexts, s6) =>
  match read_u32 s6 with
  | Except.error e => Except.error e
  | Except.ok (linkbytes, s7) =>
  if linkbytes % 8 ≠ 0 then
    Except.error (LoadErr.msg "dictionary broken: link table stored with number of bytes that is not a multiple of 8") else
  match read_u32 s7 with
  | Except.error e => Except.error e
  | Except.ok (tokenbytes, s8) =>
  if tokenbytes % 16 ≠ 0 then
    Except.error (LoadErr.msg "dictionary broken: token table stored with number of bytes that is not a multiple of 16") else
  match read_u32 s8 with
  | Except.error e => Except.error e
  | Except.ok (featurebytes, s9) =>
  match seek_rel_4 s9 with
  | Except.error e => Except.error e
  | Except.ok s10 =>
  match read_nstr s10 0x20 with
  | Except.error e => Except.error e
  | Except.ok (encoding, s11) =>
  if encoding ≠ utf8Name then
    Except.error (LoadErr.msg "only UTF-8 dictionaries are supported. stop using legacy encodings for infrastructure!") else
  match readLinks s11 (linkbytes / 8) with
  | Except.error e => Except.error e
  | Except.ok (links, s12) =>
  match readTokens s12 0 (tokenbytes / 16) with
  | Except.error e => Except.error e
  | Except.ok (tokens, s13) =>
  match readFeatures s13 featurebytes with
  | Except.error e => Except.error e
  | Except.ok (feature_bytes, _s14) =>
  match collect_links_into_hashmap links tokens fuel with
  | Except.error e => Except.error e
  | Except.ok dictionary =>
  Except.ok (mkDartDict dictionary left_contexts right_contexts feature_bytes)

/-- Little-endian byte encoding of a u32 value. -/
def u32le (n : Nat) : List Nat := [n % 256, n / 256 % 256, n / 65536 % 256, n / 16777216 % 256]

/-- The 72-byte fixed header of the file format, built from field values. -/
def mkHeaderBytes (magic version dkind numunk lc rc lb tb fb rsv : Nat) (enc : List Nat) :
    List Nat :=
  u32le magic ++ u32le version ++ u32le dkind ++ u32le numunk ++ u32le lc ++ u32le rc ++
    u32le lb ++ u32le tb ++ u32le fb ++ u32le rsv ++ enc

/-- The canonical 32-byte encoding field: the ASCII bytes of UTF-8, padded
with zero bytes. -/
def encUTF8 : List Nat := [85, 84, 70, 45, 56] ++ List.replicate 27 0

/-- On-disk bytes of one Link record. -/
def linkBytes (l : Link) : List Nat := u32le l.base ++ u32le l.check

/-- On-disk bytes of a whole link table. -/
def linksBytes (ls : List Link) : List Nat := (ls.map linkBytes).flatten

/-- A 100-node link table encoding exactly the key string a: the root
transition starts at base 1, the byte 97 leads to node 99 whose base 2 is a
valid output node with pointer complement 0 (token range first 0, count 0). -/
def linkA (i : Nat) : Link :=
  if i = 0 then { base := 1, check := 0 }
  else if i = 2 then { base := 4294967295, check := 2 }
  else if i = 99 then { base := 2, check := 1 }
  else { base := 0, check := 0 }

/-- Concrete link table of fileA. -/
def linksA : List Link := (List.range 100).map linkA

/-- A complete well-formed dictionary file whose trie encodes the single
key a with an empty token range. -/
def fileA : List Nat := mkHeaderBytes 713 102 0 0 7 9 800 0 0 0 encUTF8 ++ linksBytes linksA

/-- The Dictionary Index that loading fileA produces. -/
def dartA : DartDict :=
  { dict := [(['a'], [])], contains_longer := [], left_contexts := 7, right_contexts := 9,
    feature_bytes := [] }

/-- A 131-node link table like linksA, except that the single edge out of
the root carries byte 128, a malformed one-byte UTF-8 sequence, into node
130 whose base 2 is a valid output node. -/
def linkB (i : Nat) : Link :=
  if i = 0 then { base := 1, check := 0 }
  else if i = 2 then { base := 4294967295, check := 2 }
  else if i = 130 then { base := 2, check := 1 }
  else { base := 0, check := 0 }

/-- Concrete link table of fileB. -/
def linksB : List Link := (List.range 131).map linkB

/-- A complete well-formed dictionary file whose only terminal node is
reached by the malformed key byte 128. -/
def fileB : List Nat := mkHeaderBytes 713 102 0 0 3 4 1048 0 0 0 encUTF8 ++ linksBytes linksB

/-- The Dictionary Index that loading fileB produces: the malformed key is
dropped and the dictionary is empty. -/
def dartB : DartDict :=
  { dict := [], contains_longer := [], left_contexts := 3, right_contexts := 4,
    feature_bytes := [] }

/-- A 2-node link table whose root transition at base 1 is itself a valid
output node with pointer complement 1: token range first 0, count 1, while
the file carries no token records at all. -/
def linksC : List Link := [{ base := 1, check := 0 }, { base := 4294967294, check := 1 }]

/-- A file that passes every header and link validation but whose terminal
pointer addresses one token record in an empty token table. -/
def fileC : List Nat := mkHeaderBytes 713 102 0 0 0 0 16 0 0 0 encUTF8 ++ linksBytes linksC

/-- A file whose header declares an empty link table: every header check
passes (0 is divisible by 8 and by 16) and no table read can fail. -/
def fileD : List Nat := mkHeaderBytes 713 102 0 0 0 0 0 0 0 0 encUTF8

/-- A 4-node link table with a two-hop cycle: from base 0 the byte 0 leads
to node 1 with base 2, and from base 2 the byte 0 leads to node 3 with base
0 again; every step passes link validation. -/
def linksCyc : List Link :=
  [{ base := 0, check := 5 }, { base := 2, check := 0 }, { base := 9, check := 9 },
   { base := 0, check := 2 }]

/-- Collected entries used by the witness of the dictionary-assembly claim:
two entries with the same key, the later one with pointer 517 (token range
first 2, count 5). -/
def entriesW : List (Key × Nat) := [(['a'], 1), (['a'], 517)]

/-- A 7-record token table used by the same witness. -/
def tokensW : List FormatToken := (List.range 7).map (fun i => { raw := [], seq := i })

/-- Characterization of the accepting branch of check_valid_link. -/
lemma cvl_ok_iff (links : List Link) (src dst : Nat) :
    check_valid_link links src dst = Except.ok () ↔
      dst < links.length ∧ (links.getD dst dfltLink).check = src ∧
        (links.getD dst dfltLink).base ≠ src := by
  unfold check_valid_link
  split_ifs with h1 h2 h3 <;> simp_all

/-- Characterization of the accepting branch of check_valid_out. -/
lemma cvo_ok_iff (links : List Link) (src dst : Nat) :
    check_valid_out links src dst = Except.ok () ↔
      check_valid_link links src dst = Except.ok () ∧
        0x80000000 ≤ (links.getD dst dfltLink).base := by
  unfold check_valid_out
  cases h : check_valid_link links src dst with
  | error e =>
    constructor
    · intro hh
      exact Except.noConfusion hh
    · rintro ⟨h1, -⟩
      exact Except.noConfusion h1
  | ok u =>
    cases u
    constructor
    · intro hh
      refine ⟨rfl, ?_⟩
      by_contra hb
      rw [if_pos (by omega)] at hh
      exact Except.noConfusion hh
    · rintro ⟨-, hb⟩
      rw [if_neg (by omega)]

/-- C1: link validation succeeds exactly when the destination index is in
bounds, the destination check field names the source index and the
destination base field differs from the source index; each of the three
failing cases is rejected with its own error code, and nothing else is
rejected. -/
theorem C1_check_valid_link_characterization (links : List Link) (src dst : Nat) :
    (check_valid_link links src dst = Except.ok () ↔
      dst < links.length ∧ (links.getD dst dfltLink).check = src ∧
        (links.getD dst dfltLink).base ≠ src) ∧
    (links.length ≤ dst → check_valid_link links src dst = Except.error 1) ∧
    (dst < links.length → (links.getD dst dfltLink).check ≠ src →
      check_valid_link links src dst = Except.error 2) ∧
    (dst < links.length → (links.getD dst dfltLink).check = src →
      (links.getD dst dfltLink).base = src →
      check_valid_link links src dst = Except.error 3) := by
  refine ⟨cvl_ok_iff links src dst, ?_, ?_, ?_⟩ <;>
    · intros
      unfold check_valid_link
      split_ifs <;> simp_all <;> omega

/-- Witness for the claim on link validation at concrete inputs. -/
theorem C1_check_valid_link_witness :
    linksC.length ≤ 5 ∧ check_valid_link linksC 0 5 = Except.error 1 :=
  ⟨by decide, (C1_check_valid_link_characterization linksC 0 5).2.1 (by decide)⟩

/-- C2 (amended): at a visited node an entry is recorded exactly when the
self-referential pair passes link validation, the base field has its most
significant bit set, and the accumulated key bytes decode as a string; a
recorded pointer is the bitwise complement of the base field. -/
theorem C2_terminal_entry_characterization (links : List Link) (base : Nat) (key : List Nat) :
    (terminal_entry links base key ≠ [] ↔
      check_valid_link links base base = Except.ok () ∧
        0x80000000 ≤ (links.getD base dfltLink).base ∧
        ∃ s, read_str_buffer key = Except.ok s) ∧
    (∀ s p, terminal_entry links base key = [(s, p)] →
      p = compl32 ((links.getD base dfltLink).base)) := by
  unfold terminal_entry
  split_ifs with hv
  · rw [cvo_ok_iff] at hv
    cases h : read_str_buffer key with
    | ok s =>
      constructor
      · constructor
        · intro _
          exact ⟨hv.1, hv.2, s, rfl⟩
        · intro _
          exact List.cons_ne_nil _ _
      · intro s2 p2 hp
        injection hp with hp1 hp2
        injection hp1 with ha hb
        exact hb.symm
    | error e =>
      constructor
      · constructor
        · intro hh
          exact absurd rfl hh
        · rintro ⟨-, -, s, hs⟩
          exact Except.noConfusion hs
      · intro s p hp
        exact List.noConfusion hp
  · constructor
    · constructor
      · intro hh
        exact absurd rfl hh
      · rintro ⟨h1, h2, -⟩
        exact absurd ((cvo_ok_iff links base base).mpr ⟨h1, h2⟩) hv
    · intro s p hp
      exact hp.elim

/-- Witness for the amended terminal-entry claim at a concrete node. -/
theorem C2_terminal_entry_witness :
    terminal_entry linksB 2 [97] = [(['a'], 0)] ∧
    0 = compl32 ((linksB.getD 2 dfltLink).base) :=
  ⟨by decide, (C2_terminal_entry_characterization linksB 2 [97]).2 ['a'] 0 (by decide)⟩

/-- C2 counterexample: in the link table linksB the walker reaches node 130
from the root by byte 128 and continues at its base 2; the self pair (2,2)
passes link validation and has the most significant bit set, yet the whole
walk records no entry at all, because the key byte 128 is malformed. -/
theorem C2_cex_undecodable_key :
    collect_links_hashmap linksB 5 ((linksB.getD 0 dfltLink).base) [] = some [] ∧
    check_valid_link linksB 1 (child32 1 128) = Except.ok () ∧
    (linksB.getD (child32 1 128) dfltLink).base = 2 ∧
    check_valid_out linksB 2 2 = Except.ok () ∧
    0x80000000 ≤ (linksB.getD 2 dfltLink).base ∧
    terminal_entry linksB 2 [128] = [] := by
  refine ⟨?_, ?_, ?_, ?_, ?_, ?_⟩ <;> decide

/-- C7: a feature lookup at or beyond the end of the feature blob returns
the empty string and never an error. -/
theorem C7_feature_get_oob (d : DartDict) (offset : Nat)
    (h : d.feature_bytes.length ≤ offset) : feature_get d offset = Except.ok [] := by
  unfold feature_get
  rw [if_neg (by omega)]

/-- Witness for the feature lookup claim at a concrete index. -/
theorem C7_feature_get_oob_witness :
    dartA.feature_bytes.length ≤ 5 ∧ feature_get dartA 5 = Except.ok [] :=
  ⟨by decide, C7_feature_get_oob dartA 5 (by decide)⟩

/-- C8: a terminal node whose accumulated key bytes fail to decode records
no entry, and such a file still loads successfully: fileB reaches exactly
one valid output node, under the malformed key byte 128, and loading it
returns a dictionary with no keys rather than an error. -/
theorem C8_malformed_key_dropped :
    (∀ (links : List Link) (base : Nat) (key : List Nat),
      (∃ e, read_str_buffer key = Except.error e) → terminal_entry links base key = []) ∧
    load_mecab_dart_file 713 fileB 5 = Except.ok dartB := by
  constructor
  · intro links base key h
    obtain ⟨e, he⟩ := h
    unfold terminal_entry
    split_ifs with hv
    · rw [he]
    · rfl
  · decide

/-- Witness for the malformed-key claim at the concrete malformed byte. -/
theorem C8_malformed_key_dropped_witness :
    (∃ e, read_str_buffer [128] = Except.error e) ∧ terminal_entry linksB 2 [128] = [] :=
  ⟨⟨"invalid utf-8", by decide⟩,
    C8_malformed_key_dropped.1 linksB 2 [128] ⟨"invalid utf-8", by decide⟩⟩

/-- C9: fileC passes every header and link validation and its walk collects
the single entry with pointer 1, a token range of one record starting at
index 0, but its token table is empty: assembling the dictionary indexes
the token table out of bounds, so loading panics instead of erroring. -/
theorem C9_token_range_panic :
    load_mecab_dart_file 713 fileC 5 = Except.error LoadErr.panic ∧
    collect_links_hashmap linksC 5 ((linksC.getD 0 dfltLink).base) [] = some [([], 1)] ∧
    entries_to_tokens [(([] : Key), 1)] ([] : List FormatToken) [] = none ∧
    ([] : List FormatToken).length < 1 / 256 + 1 % 256 := by
  refine ⟨?_, ?_, ?_, ?_⟩ <;> decide

/-- C10: a file declaring zero link bytes passes every header check, yet
collecting reads links[0] of an empty link table, so the load panics for
every recursion fuel instead of returning an error. -/
theorem C10_empty_link_table_panic :
    (∀ fuel, load_mecab_dart_file 713 fileD fuel = Except.error LoadErr.panic) ∧
    collect_links_into_hashmap [] [] 5 = Except.error LoadErr.panic :=
  ⟨fun _ => rfl, rfl⟩

/-- A successful readRange returns exactly the token-table slice of the
requested length. -/
lemma readRange_some (tokens : List FormatToken) :
    ∀ (count first : Nat) (l : List FormatToken), readRange tokens first count = some l →
      l = (tokens.drop first).take count ∧ l.length = count := by
  intro count
  induction count with
  | zero =>
    intro first l h
    injection h with h
    subst h
    exact ⟨by simp, rfl⟩
  | succ n ih =>
    intro first l h
    unfold readRange at h
    cases hg : tokens.get? first with
    | none =>
      rw [hg] at h
      exact Option.noConfusion h
    | some t =>
      rw [hg] at h
      cases hr : readRange tokens (first + 1) n with
      | none =>
        rw [hr] at h
        exact Option.noConfusion h
      | some rest =>
        rw [hr] at h
        injection h with h
        subst h
        obtain ⟨hrest, hlen⟩ := ih (first + 1) rest hr
        have hfirst : first < tokens.length := by
          rw [List.get?_eq_getElem?] at hg
          exact (List.getElem?_eq_some.mp hg).1
        have hget : tokens[first] = t := by
          rw [List.get?_eq_getElem?, List.getElem?_eq_getElem hfirst] at hg
          injection hg
        constructor
        · rw [List.drop_eq_getElem_cons hfirst, List.take_succ_cons, hget, ← hrest]
        · simp [hlen]

/-- Unfolding of lastPtr on a cons cell. -/
lemma lastPtr_cons (k0 : Key) (p0 : Nat) (rest : List (Key × Nat)) (k : Key) :
    lastPtr ((k0, p0) :: rest) k =
      match lastPtr rest k with
      | some q => some q
      | none => if k = k0 then some p0 else none := rfl

/-- Lookup after the dictionary-assembly fold: the last collected entry for
a key decides its final token list, and untouched keys fall back to the
accumulator dictionary. -/
lemma entries_to_tokens_lookup (tokens : List FormatToken) :
    ∀ (entries : List (Key × Nat)) (d d2 : Dict),
      entries_to_tokens entries tokens d = some d2 →
      ∀ k : Key, lookupKey d2 k =
        match lastPtr entries k with
        | some p => some ((tokens.drop (p / 256)).take (p % 256))
        | none => lookupKey d k := by
  intro entries
  induction entries with
  | nil =>
    intro d d2 h k
    injection h with h
    subst h
    rfl
  | cons e rest ih =>
    intro d d2 h k
    obtain ⟨k0, p0⟩ := e
    unfold entries_to_tokens at h
    cases hr : readRange tokens (p0 / 0x100) (p0 % 0x100) with
    | none =>
      rw [hr] at h
      exact Option.noConfusion h
    | some lex =>
      rw [hr] at h
      have hlex := (readRange_some tokens (p0 % 0x100) (p0 / 0x100) lex hr).1
      have hstep := ih (dictInsert d k0 lex) d2 h k
      rw [hstep, lastPtr_cons]
      cases hl : lastPtr rest k with
      | some q => rfl
      | none =>
        show lookupKey (dictInsert d k0 lex) k =
          (match if k = k0 then some p0 else none with
           | some p => some ((tokens.drop (p / 256)).take (p % 256))
           | none => lookupKey d k)
        by_cases hk : k = k0
        · rw [if_pos hk]
          show (if k = k0 then some lex else lookupKey d k) =
            some ((tokens.drop (p0 / 256)).take (p0 % 256))
          rw [if_pos hk, hlex]
        · rw [if_neg hk]
          show (if k = k0 then some lex else lookupKey d k) = lookupKey d k
          rw [if_neg hk]

/-- The last pointer recorded for a key comes from an entry of the list. -/
lemma lastPtr_mem : ∀ (entries : List (Key × Nat)) (k : Key) (p : Nat),
    lastPtr entries k = some p → (k, p) ∈ entries := by
  intro entries
  induction entries with
  | nil =>
    intro k p h
    exact Option.noConfusion h
  | cons e rest ih =>
    intro k p h
    obtain ⟨k0, p0⟩ := e
    rw [lastPtr_cons] at h
    cases hl : lastPtr rest k with
    | some q =>
      rw [hl] at h
      have h2 : some q = some p := h
      injection h2 with h2
      subst h2
      exact List.mem_cons_of_mem _ (ih k q hl)
    | none =>
      rw [hl] at h
      have h2 : (if k = k0 then some p0 else none) = some p := h
      split_ifs at h2 with hk
      injection h2 with h2
      subst h2
      subst hk
      exact List.mem_cons_self _ _

/-- A successful assembly read every collected token range in bounds. -/
lemma entries_to_tokens_bounded (tokens : List FormatToken) :
    ∀ (entries : List (Key × Nat)) (d d2 : Dict),
      entries_to_tokens entries tokens d = some d2 →
      ∀ e ∈ entries, ((tokens.drop (e.2 / 256)).take (e.2 % 256)).length = e.2 % 256 := by
  intro entries
  induction entries with
  | nil =>
    intro d d2 h e he
    exact absurd he (List.not_mem_nil e)
  | cons e0 rest ih =>
    intro d d2 h e he
    obtain ⟨k0, p0⟩ := e0
    unfold entries_to_tokens at h
    cases hr : readRange tokens (p0 / 0x100) (p0 % 0x100) with
    | none =>
      rw [hr] at h
      exact Option.noConfusion h
    | some lex =>
      rw [hr] at h
      rcases List.mem_cons.mp he with rfl | hmem
      · obtain ⟨h1, h2⟩ := readRange_some tokens (p0 % 0x100) (p0 / 0x100) lex hr
        rw [← h1, h2]
      · exact ih (dictInsert d k0 lex) d2 h e hmem

/-- C3: when the dictionary assembly of the collected entries succeeds, the
lookup of any collected key returns exactly the token-table slice addressed
by the last collected pointer for that key: count records starting at index
first, in table order; earlier entries for an equal key are overwritten. -/
theorem C3_entries_to_tokens_get (entries : List (Key × Nat)) (tokens : List FormatToken)
    (d : Dict) (k : Key) (p : Nat)
    (hok : entries_to_tokens entries tokens [] = some d)
    (hlast : lastPtr entries k = some p) :
    lookupKey d k = some ((tokens.drop (p / 256)).take (p % 256)) ∧
    ((tokens.drop (p / 256)).take (p % 256)).length = p % 256 := by
  constructor
  · rw [entries_to_tokens_lookup tokens entries [] d hok k, hlast]
  · exact entries_to_tokens_bounded tokens entries [] d hok (k, p) (lastPtr_mem entries k p hlast)

/-- Witness for the dictionary-assembly claim: two entries share the key a,
the later one points at the slice of five records starting at index 2 of a
seven-record table, and lookup returns exactly that slice. -/
theorem C3_entries_to_tokens_get_witness :
    entries_to_tokens entriesW tokensW [] =
      some [(['a'], (tokensW.drop 2).take 5), (['a'], (tokensW.drop 0).take 1)] ∧
    lastPtr entriesW ['a'] = some 517 ∧
    lookupKey [(['a'], (tokensW.drop 2).take 5), (['a'], (tokensW.drop 0).take 1)] ['a'] =
      some ((tokensW.drop (517 / 256)).take (517 % 256)) ∧
    ((tokensW.drop (517 / 256)).take (517 % 256)).length = 517 % 256 :=
  ⟨by decide, by decide,
    C3_entries_to_tokens_get entriesW tokensW
      [(['a'], (tokensW.drop 2).take 5), (['a'], (tokensW.drop 0).take 1)] ['a'] 517
      (by decide) (by decide)⟩

/-- Membership in the assembled prefix set, keyed over the key list. -/
lemma mem_build_contains_longer (s : Key) :
    ∀ keys : List Key, s ∈ build_contains_longer keys ↔ ∃ k ∈ keys, s ∈ prefixesOf k := by
  intro keys
  induction keys with
  | nil => simp [build_contains_longer]
  | cons k0 rest ih =>
    simp only [build_contains_longer, List.mem_append, ih, List.mem_cons]
    constructor
    · rintro (h | ⟨k, hk, hp⟩)
      · exact ⟨k0, Or.inl rfl, h⟩
      · exact ⟨k, Or.inr hk, hp⟩
    · rintro ⟨k, (rfl | hk), hp⟩
      · exact Or.inl hp
      · exact Or.inr ⟨k, hk, hp⟩

/-- Membership in the proper-prefix list of one key. -/
lemma mem_prefixesOf (s k : Key) :
    s ∈ prefixesOf k ↔ s ≠ [] ∧ s.length < k.length ∧ k.take s.length = s := by
  unfold prefixesOf
  rw [List.mem_map]
  constructor
  · rintro ⟨i, hi, rfl⟩
    rw [List.mem_range'_1] at hi
    have hlen : (k.take i).length = i := by
      rw [List.length_take]
      omega
    refine ⟨?_, ?_, ?_⟩
    · intro hnil
      rw [hnil] at hlen
      simp only [List.length_nil] at hlen
      omega
    · rw [hlen]
      omega
    · rw [hlen]
  · rintro ⟨hne, hlt, htake⟩
    refine ⟨s.length, ?_, htake⟩
    rw [List.mem_range'_1]
    have hpos : 0 < s.length := List.length_pos.mpr hne
    omega

/-- A key has a binding exactly when it occurs among the map keys. -/
lemma lookupKey_isSome_iff (d : Dict) (k : Key) :
    (∃ v, lookupKey d k = some v) ↔ k ∈ d.map Prod.fst := by
  induction d with
  | nil => simp [lookupKey]
  | cons e rest ih =>
    obtain ⟨k1, v1⟩ := e
    simp only [lookupKey, List.map_cons, List.mem_cons]
    by_cases hk : k = k1
    · simp [hk]
    · simp [hk, ih]

/-- Inversion of a successful load: the prefix set of the returned index is
built from the keys of its own dictionary. -/
lemma load_ok_inv (am : Nat) (s : List Nat) (fuel : Nat) (d : DartDict)
    (h : load_mecab_dart_file am s fuel = Except.ok d) :
    d.contains_longer = build_contains_longer (d.dict.map Prod.fst) := by
  unfold load_mecab_dart_file at h
  repeat' split at h
  all_goals try exact Except.noConfusion h
  injection h with h
  subst h
  rfl

/-- C4 (amended): for every successfully loaded Dictionary Index and every
nonempty string s, s is in contains_longer exactly when some dictionary key
k has strictly more codepoints than s and starts with s. -/
theorem C4_contains_longer_iff (am : Nat) (bytes : List Nat) (fuel : Nat) (d : DartDict)
    (hload : load_mecab_dart_file am bytes fuel = Except.ok d) (s : Key) (hs : s ≠ []) :
    s ∈ d.contains_longer ↔
      ∃ k, (∃ v, lookupKey d.dict k = some v) ∧ s.length < k.length ∧ k.take s.length = s := by
  rw [load_ok_inv am bytes fuel d hload, mem_build_contains_longer]
  constructor
  · rintro ⟨k, hk, hp⟩
    rw [mem_prefixesOf] at hp
    exact ⟨k, (lookupKey_isSome_iff d.dict k).mpr hk, hp.2.1, hp.2.2⟩
  · rintro ⟨k, hkm, h1, h2⟩
    exact ⟨k, (lookupKey_isSome_iff d.dict k).mp hkm, (mem_prefixesOf s k).mpr ⟨hs, h1, h2⟩⟩

/-- C4 counterexample: fileA loads successfully with the single nonempty
key a, so the empty string satisfies the existential side of the claim,
being shorter than that key and a codepoint prefix of it, yet the empty
string is not a member of contains_longer. -/
theorem C4_cex_empty_string :
    load_mecab_dart_file 713 fileA 5 = Except.ok dartA ∧
    (∃ k, (∃ v, lookupKey dartA.dict k = some v) ∧ ([] : Key).length < k.length ∧
      k.take ([] : Key).length = ([] : Key)) ∧
    ([] : Key) ∉ dartA.contains_longer := by
  refine ⟨by decide, ⟨['a'], ⟨[], by decide⟩, by decide, by decide⟩, by decide⟩

/-- Witness for the amended prefix-set claim on the loaded index of fileA
at a concrete nonempty string. -/
theorem C4_contains_longer_iff_witness :
    load_mecab_dart_file 713 fileA 5 = Except.ok dartA ∧ (['a', 'b'] : Key) ≠ [] ∧
    ((['a', 'b'] : Key) ∈ dartA.contains_longer ↔
      ∃ k, (∃ v, lookupKey dartA.dict k = some v) ∧ (['a', 'b'] : Key).length < k.length ∧
        k.take (['a', 'b'] : Key).length = ['a', 'b']) :=
  ⟨by decide, by decide, C4_contains_longer_iff 713 fileA 5 dartA (by decide) ['a', 'b'] (by decide)⟩

/-- If some candidate byte of the loop passes link validation but the walk
at its destination diverges, the whole child loop diverges. -/
lemma collect_links_kids_none (links : List Link)
    (walkAt : Nat → List Nat → Option (List (Key × Nat))) (base : Nat) (key : List Nat) :
    ∀ (bs : List Nat) (i : Nat), i ∈ bs →
      check_valid_link links base (child32 base i) = Except.ok () →
      walkAt ((links.getD (child32 base i) dfltLink).base) (key ++ [i]) = none →
      collect_links_kids links walkAt base key bs = none := by
  intro bs
  induction bs with
  | nil =>
    intro i hmem
    exact absurd hmem (List.not_mem_nil i)
  | cons j rest ih =>
    intro i hmem hval hrec
    rcases List.mem_cons.mp hmem with rfl | hmem2
    · unfold collect_links_kids
      rw [if_pos hval, hrec]
    · unfold collect_links_kids
      by_cases hj : check_valid_link links base (child32 base j) = Except.ok ()
      · rw [if_pos hj]
        cases hw : walkAt ((links.getD (child32 base j) dfltLink).base) (key ++ [j]) with
        | none => rfl
        | some sub => rw [ih i hmem2 hval hrec]
      · rw [if_neg hj]
        exact ih i hmem2 hval hrec

/-- On the cyclic table linksCyc the walk exhausts any fuel when started
from base 0 or base 2, with any accumulated key. -/
lemma walk_linksCyc_none : ∀ (fuel : Nat) (key : List Nat),
    collect_links_hashmap linksCyc fuel 0 key = none ∧
    collect_links_hashmap linksCyc fuel 2 key = none := by
  intro fuel
  induction fuel with
  | zero =>
    intro key
    exact ⟨rfl, rfl⟩
  | succ n ih =>
    intro key
    constructor
    · have h1 : collect_links_hashmap linksCyc n 2 (key ++ [0]) = none := (ih (key ++ [0])).2
      simp only [collect_links_hashmap]
      rw [collect_links_kids_none linksCyc _ 0 key (List.range 256) 0 (by decide) (by decide) h1]
    · have h1 : collect_links_hashmap linksCyc n 0 (key ++ [0]) = none := (ih (key ++ [0])).1
      simp only [collect_links_hashmap]
      rw [collect_links_kids_none linksCyc _ 2 key (List.range 256) 0 (by decide) (by decide) h1]

/-- C6 counterexample: the depth-first walk of the cyclic link table
linksCyc, started at links[0].base with an empty key, completes within no
recursion depth at all: every transition it follows is validated, yet the
two-hop cycle between bases 0 and 2 recurs forever. -/
theorem C6_cex_cycle : ¬ walk_terminates linksCyc := by
  rintro ⟨fuel, h⟩
  have h2 : (collect_links_hashmap linksCyc fuel 0 []).isSome = true := h
  rw [(walk_linksCyc_none fuel []).1] at h2
  exact Bool.noConfusion h2

/-- C6 (amended): every recursive step of the trie walk extends the
accumulated key by exactly one byte and only follows a transition whose
destination is in bounds, whose destination check field names the current
node, and whose destination base field differs from the current node index,
so a one-hop self loop is never followed; the full traversal nevertheless
need not terminate on every link table. -/
theorem C6_step_properties (links : List Link) (base : Nat) (key : List Nat) (i : Nat)
    (hval : check_valid_link links base (child32 base i) = Except.ok ()) :
    (key ++ [i]).length = key.length + 1 ∧
    child32 base i < links.length ∧
    (links.getD (child32 base i) dfltLink).check = base ∧
    (links.getD (child32 base i) dfltLink).base ≠ base := by
  have h := (cvl_ok_iff links base (child32 base i)).mp hval
  exact ⟨by simp, h.1, h.2.1, h.2.2⟩

/-- Witness for the per-step claim at a concrete validated transition. -/
theorem C6_step_properties_witness :
    check_valid_link linksCyc 0 (child32 0 0) = Except.ok () ∧
    ((([] : List Nat) ++ [0]).length = ([] : List Nat).length + 1 ∧
      child32 0 0 < linksCyc.length ∧
      (linksCyc.getD (child32 0 0) dfltLink).check = 0 ∧
      (linksCyc.getD (child32 0 0) dfltLink).base ≠ 0) :=
  ⟨by decide, C6_step_properties linksCyc 0 [] 0 (by decide)⟩

/-- read_u32 decodes a little-endian-encoded field and leaves the tail. -/
lemma read_u32_u32le (n : Nat) (r : List Nat) :
    read_u32 (u32le n ++ r) = Except.ok (n % 4294967296, r) := by
  have hsum : n % 256 + 256 * (n / 256 % 256) + 65536 * (n / 65536 % 256) +
      16777216 * (n / 16777216 % 256) = n % 4294967296 := by omega
  show Except.ok (n % 256 + 256 * (n / 256 % 256) + 65536 * (n / 65536 % 256) +
      16777216 * (n / 16777216 % 256), r) = Except.ok (n % 4294967296, r)
  rw [hsum]

/-- seek_rel_4 skips exactly one encoded field. -/
lemma seek_rel_4_u32le (n : Nat) (r : List Nat) : seek_rel_4 (u32le n ++ r) = Except.ok r := rfl

/-- read_nstr on a 32-byte field followed by the rest of the stream. -/
lemma read_nstr_split (enc r : List Nat) (k : Key) (h : enc.length = 32)
    (hdec : read_str_buffer enc = Except.ok k) :
    read_nstr (enc ++ r) 32 = Except.ok (k, r) := by
  unfold read_nstr
  rw [if_pos (by rw [List.length_append]; omega)]
  rw [show (enc ++ r).take 32 = enc from by rw [← h]; exact List.take_left enc r]
  rw [hdec]
  rw [show (enc ++ r).drop 32 = r from by rw [← h]; exact List.drop_left enc r]

/-- The stream assembled from header fields followed by arbitrary bytes. -/
def headerStream (magic version dkind numunk lc rc lb tb fb rsv : Nat)
    (enc rest : List Nat) : List Nat :=
  mkHeaderBytes magic version dkind numunk lc rc lb tb fb rsv enc ++ rest

/-- C5: on any stream carrying a full header, a wrong magic word fails with
the format-mismatch error; with the magic right, a version other than 0x66
fails with the unsupported-version error; then link bytes not divisible by
8, token bytes not divisible by 16, and an encoding field that decodes to
anything but UTF-8 each fail with their own error, checked in that order;
in the embedding every failing case returns the error alone, no index. -/
theorem C5_header_errors (am magic version dkind numunk lc rc lb tb fb rsv : Nat)
    (enc rest : List Nat) (fuel : Nat) (encKey : Key)
    (hm : magic < 4294967296) (hv : version < 4294967296) (hdk : dkind < 4294967296)
    (hnu : numunk < 4294967296) (hlc : lc < 4294967296) (hrc : rc < 4294967296)
    (hlb : lb < 4294967296) (htb : tb < 4294967296) (hfb : fb < 4294967296)
    (hrs : rsv < 4294967296) (hel : enc.length = 32)
    (hed : read_str_buffer enc = Except.ok encKey) :
    (magic ≠ am →
      load_mecab_dart_file am (headerStream magic version dkind numunk lc rc lb tb fb rsv enc rest) fuel =
        Except.error (LoadErr.msg "not a mecab dic file or is a dic file of the wrong kind")) ∧
    (magic = am → version ≠ 102 →
      load_mecab_dart_file am (headerStream magic version dkind numunk lc rc lb tb fb rsv enc rest) fuel =
        Except.error (LoadErr.msg "unsupported version")) ∧
    (magic = am → version = 102 → lb % 8 ≠ 0 →
      load_mecab_dart_file am (headerStream magic version dkind numunk lc rc lb tb fb rsv enc rest) fuel =
        Except.error (LoadErr.msg "dictionary broken: link table stored with number of bytes that is not a multiple of 8")) ∧
    (magic = am → version = 102 → lb % 8 = 0 → tb % 16 ≠ 0 →
      load_mecab_dart_file am (headerStream magic version dkind numunk lc rc lb tb fb rsv enc rest) fuel =
        Except.error (LoadErr.msg "dictionary broken: token table stored with number of bytes that is not a multiple of 16")) ∧
    (magic = am → version = 102 → lb % 8 = 0 → tb % 16 = 0 → encKey ≠ utf8Name →
      load_mecab_dart_file am (headerStream magic version dkind numunk lc rc lb tb fb rsv enc rest) fuel =
        Except.error (LoadErr.msg "only UTF-8 dictionaries are supported. stop using legacy encodings for infrastructure!")) := by
  have hstream : headerStream magic version dkind numunk lc rc lb tb fb rsv enc rest =
      u32le magic ++ (u32le version ++ (u32le dkind ++ (u32le numunk ++ (u32le lc ++
        (u32le rc ++ (u32le lb ++ (u32le tb ++ (u32le fb ++ (u32le rsv ++ (enc ++ rest)))))))))) := by
    unfold headerStream mkHeaderBytes
    simp [List.append_assoc]
  refine ⟨?_, ?_, ?_, ?_, ?_⟩
  · intro hne
    simp [hstream, load_mecab_dart_file, read_u32_u32le, Nat.mod_eq_of_lt hm, hne]
  · intro hmeq hvne
    subst hmeq
    simp [hstream, load_mecab_dart_file, read_u32_u32le, Nat.mod_eq_of_lt hm,
      Nat.mod_eq_of_lt hv, hvne]
  · intro hmeq hveq hlbne
    subst hmeq
    subst hveq
    simp [hstream, load_mecab_dart_file, read_u32_u32le, seek_rel_4_u32le,
      Nat.mod_eq_of_lt hm, Nat.mod_eq_of_lt hlb, hlbne]
  · intro hmeq hveq hlbeq htbne
    subst hmeq
    subst hveq
    simp [hstream, load_mecab_dart_file, read_u32_u32le, seek_rel_4_u32le,
      Nat.mod_eq_of_lt hm, Nat.mod_eq_of_lt hlb, Nat.mod_eq_of_lt htb, hlbeq, htbne]
  · intro hmeq hveq hlbeq htbeq hke
    subst hmeq
    subst hveq
    simp [hstream, load_mecab_dart_file, read_u32_u32le, seek_rel_4_u32le,
      read_nstr_split enc rest encKey hel hed, Nat.mod_eq_of_lt hm, Nat.mod_eq_of_lt hlb,
      Nat.mod_eq_of_lt htb, hlbeq, htbeq, hke]

/-- Witness for the header-error claim: expecting magic 1 but reading magic
2 fails with the format-mismatch error. -/
theorem C5_header_errors_witness :
    (2 : Nat) ≠ 1 ∧
    load_mecab_dart_file 1 (headerStream 2 102 0 0 0 0 0 0 0 0 encUTF8 []) 0 =
      Except.error (LoadErr.msg "not a mecab dic file or is a dic file of the wrong kind") :=
  ⟨by decide,
    (C5_header_errors 1 2 102 0 0 0 0 0 0 0 0 encUTF8 [] 0 utf8Name (by decide) (by decide)
      (by decide) (by decide) (by decide) (by decide) (by decide) (by decide) (by decide)
      (by decide) (by decide) (by decide)).1 (by decide)⟩
